import Mathlib

/-!
Verification of the segmented-transcode core of `go-transcode`:
the ffmpeg argument builder and transcode orchestration in
`src/hlsvod/transcode.go`, and the cross-platform process-group kill
primitive in `src/internal/utils/cmdgroup` (POSIX and Windows variants).

Shallow embedding conventions:
* Go `float64` segment times are modelled as exact rationals `ℚ`;
  `fmt.Sprintf("%.6f", x)` becomes `formatFixed6`, which rounds to
  microseconds and prints with exactly six fractional digits.
* Go `int` fields are modelled as `Int`; `fmt.Sprintf("%d", n)` becomes
  `intStr`.
* Calls into the operating system (pipe creation, process start, the
  ffprobe run, `syscall.Getpgid`, `syscall.Kill`, `Process.Kill`,
  `TASKKILL`) are modelled as explicit environment records carrying the
  outcome the OS would report; the functions under verification are then
  pure functions of the configuration and that environment.
* `path.Join` from the Go standard library is an opaque collaborator:
  it is passed in as a function parameter.
-/

/-! ### Decimal string helpers (model of fmt.Sprintf "%d" and "%.6f") -/

/-- Fuel-driven decimal digit expansion of a natural number, most
significant digit first.  `fuel = n + 1` always suffices. -/
def natCharsAux : Nat → Nat → List Char
  | 0, _ => []
  | fuel + 1, n =>
    if n < 10 then [Nat.digitChar n]
    else natCharsAux fuel (n / 10) ++ [Nat.digitChar (n % 10)]

/-- Decimal digit list of a natural number. -/
def natChars (n : Nat) : List Char := natCharsAux (n + 1) n

/-- Decimal string of a natural number (model of Go `%d` on nonnegative
values). -/
def natStr (n : Nat) : String := String.mk (natChars n)

/-- Decimal string of an integer (model of Go `fmt.Sprintf("%d", i)`). -/
def intStr (i : Int) : String :=
  if i < 0 then "-" ++ natStr i.natAbs else natStr i.natAbs

/-- Microsecond value of a rational time: `round (q * 10^6)`, written on
the numerator/denominator so that it evaluates by integer arithmetic. -/
def micro6 (q : ℚ) : Int :=
  Int.fdiv (2 * (q.num * 1000000) + q.den) (2 * q.den)

/-- Exactly six decimal digits of `n % 10^6`, zero padded. -/
def sixFrac (n : Nat) : String :=
  String.mk ((List.range 6).map fun i => Nat.digitChar (n / 10 ^ (5 - i) % 10))

/-- Model of Go `fmt.Sprintf("%.6f", t)`: sign, integer part, a dot and
exactly six fractional digits. -/
def formatFixed6 (q : ℚ) : String :=
  (if micro6 q < 0 then "-" else "") ++
    natStr ((micro6 q).natAbs / 1000000) ++ "." ++
    sixFrac ((micro6 q).natAbs % 1000000)

/-! ### Data model (src/hlsvod/transcode.go, lines 15-34) -/

/-- `VideoProfile` from transcode.go: target width, height and bitrate. -/
structure VideoProfile where
  width : Int
  height : Int
  bitrate : Int
deriving DecidableEq, Repr

/-- `AudioProfile` from transcode.go: target bitrate. -/
structure AudioProfile where
  bitrate : Int
deriving DecidableEq, Repr

/-- `TranscodeConfig` from transcode.go.  The Go field `SegmentPrefix`
is called `segmentPrefixName` here. -/
structure TranscodeConfig where
  inputFilePath : String
  outputDirPath : String
  segmentPrefixName : String
  segmentOffset : Int
  segmentTimes : List ℚ
  videoProfile : Option VideoProfile
  audioProfile : Option AudioProfile
deriving DecidableEq, Repr

/-! ### Profile classifier (src/hlsvod/transcode.go, lines 71-116) -/

/-- The literal `format422` slice from `is422Format`. -/
def format422List : List String :=
  ["yuv422p", "yuv422p10le", "yuv422p12le", "yuv422p16le", "yuv422p9le",
   "yuv422p10be", "yuv422p12be", "yuv422p16be", "yuv422p9be",
   "yuv422p14le", "yuv422p14be",
   "yuyv422", "uyvy422",
   "yuvj422p",
   "yuva422p", "yuva422p9le", "yuva422p9be", "yuva422p10le", "yuva422p10be",
   "yuva422p12le", "yuva422p12be", "yuva422p16le", "yuva422p16be",
   "v210", "v216",
   "p210le", "p210be", "p216le", "p216be"]

/-- `is422Format`: linear scan of `format422` for an exact match. -/
def is422Format (pixelFormat : String) : Bool :=
  format422List.contains pixelFormat

/-! ### Invocation builder (src/hlsvod/transcode.go, lines 125-228)

`TranscodeSegments` builds the argument vector by successive appends;
each chunk below corresponds to one `args = append(args, ...)` block,
in source order. -/

/-- `startAt`: the first segment boundary (lines 126-130). -/
def startAt (cfg : TranscodeConfig) : ℚ := cfg.segmentTimes.headD 0

/-- `endAt`: the last segment boundary (lines 126-130). -/
def endAt (cfg : TranscodeConfig) : ℚ := cfg.segmentTimes.getLastD 0

/-- `commaSeparatedSegTimes` (lines 132-140): every boundary except the
first, `%.6f`-formatted and comma-joined.  The Go code formats all
entries and then joins `fmtSegTimes[1:]`, which is the same string. -/
def segmentTimesStr (cfg : TranscodeConfig) : String :=
  String.intercalate "," ((cfg.segmentTimes.drop 1).map formatFixed6)

/-- Seek chunk (lines 146-153): `-ss` is emitted only when `startAt > 0`. -/
def seekArgs (cfg : TranscodeConfig) : List String :=
  if 0 < startAt cfg then ["-ss", formatFixed6 (startAt cfg)] else []

/-- Input chunk (lines 155-162). -/
def inputArgs (cfg : TranscodeConfig) : List String :=
  ["-i", cfg.inputFilePath,
   "-to", formatFixed6 (endAt cfg),
   "-copyts",
   "-force_key_frames", segmentTimesStr cfg,
   "-sn"]

/-- The scale filter string (lines 186-191): when `Width >= Height` the
height is fixed and the width is computed (`-2` means
aspect-preserving, rounded to an even value), otherwise the width is
fixed. -/
def scaleFilter (p : VideoProfile) : String :=
  if p.height ≤ p.width then "scale=-2:" ++ intStr p.height
  else "scale=" ++ intStr p.width ++ ":-2"

/-- The `-profile:v` value (lines 193-196). -/
def profileFlagValue (use422 : Bool) : String :=
  if use422 then "high422" else "high"

/-- Video chunk (lines 182-206); empty when no video profile is given. -/
def videoArgs (cfg : TranscodeConfig) (use422 : Bool) : List String :=
  match cfg.videoProfile with
  | none => []
  | some p =>
    ["-vf", scaleFilter p,
     "-c:v", "libx264",
     "-preset", "faster",
     "-profile:v", profileFlagValue use422,
     "-level:v", "4.0",
     "-b:v", intStr p.bitrate ++ "k"]

/-- Audio chunk (lines 208-216); empty when no audio profile is given. -/
def audioArgs (cfg : TranscodeConfig) : List String :=
  match cfg.audioProfile with
  | none => []
  | some p => ["-c:a", "aac", "-b:a", intStr p.bitrate ++ "k"]

/-- Segmenting chunk (lines 218-228).  `pj` models Go's `path.Join`. -/
def segmentArgs (pj : String → String → String) (cfg : TranscodeConfig) :
    List String :=
  ["-f", "segment",
   "-segment_time_delta", "0.2",
   "-segment_format", "mpegts",
   "-segment_times", segmentTimesStr cfg,
   "-segment_start_number", intStr cfg.segmentOffset,
   "-segment_list_type", "flat",
   "-segment_list", "pipe:1",
   pj cfg.outputDirPath (cfg.segmentPrefixName ++ "-%05d.ts")]

/-- The complete ffmpeg argument vector built by `TranscodeSegments`
(lines 142-228), as a function of the configuration, the `path.Join`
collaborator and the probe classification. -/
def buildArgs (pj : String → String → String) (cfg : TranscodeConfig)
    (use422 : Bool) : List String :=
  ["-loglevel", "warning"] ++ seekArgs cfg ++ inputArgs cfg ++
    videoArgs cfg use422 ++ audioArgs cfg ++ segmentArgs pj cfg

/-! ### strings.Replace with count 1 (line 167) -/

/-- One-occurrence substring search over character lists. -/
def listContainsSub (pat : List Char) : List Char → Bool
  | [] => pat.isEmpty
  | c :: rest => pat.isPrefixOf (c :: rest) || listContainsSub pat rest

/-- Replace the first occurrence of `pat` by `new` in a character list
(model of Go `strings.Replace(s, pat, new, 1)` for nonempty `pat`). -/
def replaceOnceL (pat new : List Char) : List Char → List Char
  | [] => []
  | c :: rest =>
    if pat.isPrefixOf (c :: rest) then new ++ (c :: rest).drop pat.length
    else c :: replaceOnceL pat new rest

/-- Model of Go `strings.Replace(s, pat, new, 1)`. -/
def replaceOnce (s pat new : String) : String :=
  String.mk (replaceOnceL pat.data new.data s.data)

/-! ### TranscodeSegments, synchronous phase (lines 119-295)

The calls into the operating system are modelled by `GoEnv`: the
outcome of `detectVideoFormat` (which itself shells out to ffprobe),
of `cmd.StdoutPipe()`, `cmd.StderrPipe()` and `cmd.Start()`.  Errors
are strings, `none` meaning the Go `nil` error. -/

structure GoEnv where
  pathJoin : String → String → String
  probeResult : Except String String
  stdoutPipeErr : Option String
  stderrPipeErr : Option String
  startErr : Option String

/-- Everything `TranscodeSegments` returns or observably does during
its synchronous phase:
* `channel`/`err` — the two returned values (`some ()` = a non-nil
  channel);
* `channelCreated` — whether `make(chan string, 1)` was executed;
* `args` — the built argument vector, when the boundary-count guard
  was passed;
* `probeCall` — the binary handed to `detectVideoFormat`, when a probe
  was made;
* `probeWarned` — whether the probe-failure warning was logged. -/
structure TranscodeResult where
  channel : Option Unit
  err : Option String
  channelCreated : Bool
  args : Option (List String)
  probeCall : Option String
  probeWarned : Bool
deriving DecidableEq, Repr

/-- The error text of the boundary-count guard (line 122). -/
def errMinSegments : String := "minimum 2 segment times needed"

/-- Synchronous phase of `TranscodeSegments` (lines 119-295): guard,
probe, argument building, pipe setup, channel creation, process start
and the returned pair. -/
def transcodeSegments (env : GoEnv) (ffmpegBinary : String)
    (cfg : TranscodeConfig) : TranscodeResult :=
  if cfg.segmentTimes.length < 2 then
    ⟨none, some errMinSegments, false, none, none, false⟩
  else
    let probeCall :=
      if cfg.videoProfile.isSome then
        some (replaceOnce ffmpegBinary "ffmpeg" "ffprobe")
      else none
    let probeWarned :=
      match cfg.videoProfile, env.probeResult with
      | some _, .error _ => true
      | _, _ => false
    let use422 :=
      match cfg.videoProfile, env.probeResult with
      | some _, .ok pf => is422Format pf
      | _, _ => false
    let args := buildArgs env.pathJoin cfg use422
    match env.stdoutPipeErr with
    | some e => ⟨none, some e, false, some args, probeCall, probeWarned⟩
    | none =>
      match env.stderrPipeErr with
      | some e => ⟨none, some e, false, some args, probeCall, probeWarned⟩
      | none => ⟨some (), env.startErr, true, some args, probeCall, probeWarned⟩

/-! ### Process-group kill (src/unnamed/part_000 and
src/internal/utils/cmdgroup/platform_windows.go)

A command handle is `Option (Option Int)`: `none` models a nil `*Cmd`,
`some none` a command whose `Process` field is nil (never started),
`some (some pid)` a started command.  The syscall outcomes are again
environment records. -/

/-- Which termination action `platformKill` performed. -/
inductive KillAction where
  | noop
  | group (target : Int)
  | direct
  | taskkill (pid : Int)
deriving DecidableEq, Repr

/-- Outcomes of the syscalls used by the POSIX `platformKill`. -/
structure PosixKillEnv where
  getpgid : Except String Int
  killGroup : Option String
  processKill : Option String
deriving Repr

/-- Result of the POSIX `platformKill`: returned error, the logged
group-id resolution error (if any), and the action taken. -/
structure PosixKillResult where
  ret : Option String
  loggedPgidErr : Option String
  action : KillAction
deriving DecidableEq, Repr

/-- POSIX `platformKill` (src/unnamed/part_000, lines 17-30). -/
def platformKillPosix : Option (Option Int) → PosixKillEnv → PosixKillResult
  | none, _ => ⟨none, none, .noop⟩
  | some none, _ => ⟨none, none, .noop⟩
  | some (some _pid), env =>
    match env.getpgid with
    | .error e => ⟨env.processKill, some e, .direct⟩
    | .ok pgid => ⟨env.killGroup, none, .group (-pgid)⟩

/-- Outcome of `kill.Run()` (the TASKKILL child process) on Windows. -/
structure WinKillEnv where
  taskkillRun : Option String
deriving DecidableEq, Repr

/-- Windows `platformKill`
(src/internal/utils/cmdgroup/platform_windows.go, lines 17-27). -/
def platformKillWindows : Option (Option Int) → WinKillEnv →
    Option String × KillAction
  | none, _ => (none, .noop)
  | some none, _ => (none, .noop)
  | some (some pid), env => (env.taskkillRun, .taskkill pid)

/-! ### Channel-close barrier (lines 243-293)

After a successful start, three concurrent tasks run: the stdout
reader (which, via `defer { wg.Wait(); close(segments) }`, closes the
notification channel), the stderr reader (`defer wg.Done()`) and the
process-exit supervisor (`defer wg.Done()`); `wg` starts at 2.  The
interleavings are modelled as a labelled transition system. -/

structure OrchState where
  stdoutEOF : Bool
  stderrDone : Bool
  waitDone : Bool
  wg : Nat
  closed : Bool
  closeCount : Nat
deriving DecidableEq, Repr

/-- State right after `TranscodeSegments` returns the channel:
`wg.Add(2)` has run, nothing has finished, the channel is open. -/
def initOrch : OrchState := ⟨false, false, false, 2, false, 0⟩

/-- One scheduler step.  `stderr`/`wait` model the two `wg.Done()`
deferrals, `eof` the stdout scanner reaching end-of-stream, `close`
the `wg.Wait(); close(segments)` deferral, which can only fire after
the stdout reader finished and the wait group dropped to zero. -/
inductive OrchStep : OrchState → OrchState → Prop where
  | stderr (s : OrchState) (h : s.stderrDone = false) :
      OrchStep s { s with stderrDone := true, wg := s.wg - 1 }
  | wait (s : OrchState) (h : s.waitDone = false) :
      OrchStep s { s with waitDone := true, wg := s.wg - 1 }
  | eof (s : OrchState) (h : s.stdoutEOF = false) :
      OrchStep s { s with stdoutEOF := true }
  | close (s : OrchState) (h1 : s.stdoutEOF = true) (h2 : s.wg = 0)
      (h3 : s.closed = false) :
      OrchStep s { s with closed := true, closeCount := s.closeCount + 1 }

/-- Reachability from the post-start state. -/
def OrchReached (s : OrchState) : Prop :=
  Relation.ReflTransGen OrchStep initOrch s

/-! ### Occurrence of an adjacent flag/value pair in an argument vector -/

/-- `hasPair flag v args` holds when `args` contains the element `flag`
immediately followed by the element `v`. -/
def hasPair (flag v : String) : List String → Bool
  | f :: w :: rest => (f == flag && w == v) || hasPair flag v (w :: rest)
  | _ => false

/-! ### Concrete fixtures used by witnesses and counterexamples -/

/-- A concrete stand-in for the `path.Join` collaborator. -/
def pjStd : String → String → String := fun a b => a ++ "/" ++ b

def cfgFull : TranscodeConfig :=
  ⟨"input.mkv", "out", "seg", 0, [0, 2, 4], some ⟨1920, 1080, 3000⟩, some ⟨128⟩⟩

def cfgPlain : TranscodeConfig :=
  ⟨"in.mkv", "out", "seg", 0, [0, 2], none, none⟩

def cfgSeek : TranscodeConfig :=
  ⟨"in.mkv", "out", "seg", 0, [3, 5], none, none⟩

/-- A config whose input path is literally `-ss`. -/
def cfgSSInput : TranscodeConfig :=
  ⟨"-ss", "out", "seg", 0, [0, 1], none, none⟩

/-- Environment with a failing `cmd.Start()`. -/
def envSpawnFail : GoEnv :=
  ⟨pjStd, .ok "yuv420p", none, none, some "fork/exec ffmpeg: no such file or directory"⟩

/-- Environment with a failing `cmd.StdoutPipe()`. -/
def envPipeFail : GoEnv :=
  ⟨pjStd, .ok "yuv420p", some "pipe: too many open files", none, none⟩

/-- Environment whose probe reports a failure. -/
def envProbeFail : GoEnv :=
  ⟨pjStd, .error "failed to run ffprobe: exit status 1", none, none, none⟩

/-- Syscall outcomes of a second `Kill` on a process that has already
exited and been reaped by `cmd.Wait()`: `syscall.Getpgid` fails with
ESRCH, and the fallback `cmd.Process.Kill()` reports that the process
is already finished (`os.ErrProcessDone`), a non-nil error. -/
def envKillDeadPosix : PosixKillEnv :=
  ⟨.error "no such process", none, some "os: process already finished"⟩

/-- Outcome of `TASKKILL /T /PID` on an already-exited pid: the child
process exits non-zero, so `kill.Run()` returns a non-nil error. -/
def envKillDeadWin : WinKillEnv := ⟨some "exit status 128"⟩

/-- Inductive invariant of the close barrier: the wait-group count
tracks the two unfinished `wg.Done()` tasks, and a closed channel
means the stdout reader saw end-of-stream, both other tasks finished
and `close` ran exactly once. -/
def OrchInv (s : OrchState) : Prop :=
  s.wg = (if s.stderrDone then 0 else 1) + (if s.waitDone then 0 else 1) ∧
  (s.closed = true → s.stdoutEOF = true ∧ s.stderrDone = true ∧
    s.waitDone = true ∧ s.closeCount = 1) ∧
  (s.closed = false → s.closeCount = 0)

/-- Number of pending events before the channel is closed. -/
def orchRemaining (s : OrchState) : Nat :=
  (if s.stdoutEOF then 0 else 1) + (if s.stderrDone then 0 else 1) +
    (if s.waitDone then 0 else 1) + (if s.closed then 0 else 1)

lemma hasPair_head (f v : String) (l : List String) :
    hasPair f v (f :: v :: l) = true := by
  simp [hasPair]

lemma hasPair_cons {f v : String} {l : List String} (x : String)
    (h : hasPair f v l = true) : hasPair f v (x :: l) = true := by
  match l with
  | [] => simp [hasPair] at h
  | y :: r => rw [hasPair, h, Bool.or_true]

lemma hasPair_append_right {f v : String} {l2 : List String}
    (l1 : List String) (h : hasPair f v l2 = true) :
    hasPair f v (l1 ++ l2) = true := by
  induction l1 with
  | nil => simpa using h
  | cons x xs ih => rw [List.cons_append]; exact hasPair_cons x ih

/-! ### Character-level facts about the formatting helpers -/

lemma strData_append (a b : String) : (a ++ b).data = a.data ++ b.data := rfl

lemma digitChar_isDigit {n : Nat} (h : n < 10) :
    (Nat.digitChar n).isDigit = true := by
  interval_cases n <;> decide

lemma natCharsAux_digits (fuel : Nat) :
    ∀ n, ∀ c ∈ natCharsAux fuel n, c.isDigit = true := by
  induction fuel with
  | zero => intro n c hc; simp [natCharsAux] at hc
  | succ f ih =>
    intro n c hc
    rw [natCharsAux] at hc
    by_cases h : n < 10
    · rw [if_pos h] at hc
      simp only [List.mem_singleton] at hc
      exact hc ▸ digitChar_isDigit h
    · rw [if_neg h] at hc
      rcases List.mem_append.mp hc with h1 | h1
      · exact ih _ c h1
      · simp only [List.mem_singleton] at h1
        exact h1 ▸ digitChar_isDigit (Nat.mod_lt _ (by norm_num))

lemma natChars_digits (n : Nat) : ∀ c ∈ natChars n, c.isDigit = true :=
  natCharsAux_digits (n + 1) n

/-- A string is unequal to another as soon as some character occurs in
one and not the other. -/
lemma str_ne_of_mem_not_mem {a b : String} {c : Char}
    (h1 : c ∈ a.data) (h2 : c ∉ b.data) : a ≠ b :=
  fun e => h2 (e ▸ h1)

lemma dot_mem_formatFixed6 (q : ℚ) : '.' ∈ (formatFixed6 q).data := by
  rw [formatFixed6, strData_append, strData_append, strData_append]
  refine List.mem_append.mpr (Or.inl ?_)
  refine List.mem_append.mpr (Or.inr ?_)
  decide

lemma formatFixed6_ne_ss (q : ℚ) : formatFixed6 q ≠ "-ss" :=
  str_ne_of_mem_not_mem (dot_mem_formatFixed6 q) (by decide)

lemma dot_mem_intercalate_go (s : String) (l : List String) :
    ∀ acc : String, '.' ∈ acc.data →
      '.' ∈ (String.intercalate.go acc s l).data := by
  induction l with
  | nil => intro acc h; exact h
  | cons a as ih =>
    intro acc h
    rw [String.intercalate.go]
    exact ih _ (by
      rw [strData_append, strData_append]
      exact List.mem_append.mpr (Or.inl (List.mem_append.mpr (Or.inl h))))

lemma dot_mem_segmentTimesStr {cfg : TranscodeConfig}
    (h2 : 2 ≤ cfg.segmentTimes.length) : '.' ∈ (segmentTimesStr cfg).data := by
  have hne : cfg.segmentTimes.drop 1 ≠ [] := by
    intro h
    have := congrArg List.length h
    simp [List.length_drop] at this
    omega
  rw [segmentTimesStr]
  match hms : cfg.segmentTimes.drop 1 with
  | [] => exact absurd hms hne
  | t :: ts =>
    rw [List.map_cons, String.intercalate]
    exact dot_mem_intercalate_go _ _ _ (dot_mem_formatFixed6 t)

lemma segmentTimesStr_ne_ss {cfg : TranscodeConfig}
    (h2 : 2 ≤ cfg.segmentTimes.length) : segmentTimesStr cfg ≠ "-ss" :=
  str_ne_of_mem_not_mem (dot_mem_segmentTimesStr h2) (by decide)

lemma natStr_ne_ss (n : Nat) : natStr n ≠ "-ss" := by
  intro e
  have hmem : '-' ∈ (natStr n).data := by rw [e]; decide
  have := natChars_digits n '-' hmem
  simp at this

lemma intStr_ne_ss (i : Int) : intStr i ≠ "-ss" := by
  rw [intStr]
  by_cases h : i < 0
  · rw [if_pos h]
    intro e
    have hdata : ('-' :: natChars i.natAbs : List Char) = ['-', 's', 's'] :=
      congrArg String.data e
    have : 's' ∈ natChars i.natAbs := by
      rw [List.cons.injEq] at hdata
      rw [hdata.2]; decide
    have := natChars_digits i.natAbs 's' this
    simp at this
  · rw [if_neg h]; exact natStr_ne_ss _

lemma intStr_k_ne_ss (i : Int) : intStr i ++ "k" ≠ "-ss" := by
  refine str_ne_of_mem_not_mem (c := 'k') ?_ (by decide)
  rw [strData_append]
  exact List.mem_append.mpr (Or.inr (by decide))

lemma scaleFilter_ne_ss (p : VideoProfile) : scaleFilter p ≠ "-ss" := by
  rw [scaleFilter]
  by_cases h : p.height ≤ p.width
  · rw [if_pos h]
    refine str_ne_of_mem_not_mem (c := ':') ?_ (by decide)
    rw [strData_append]
    exact List.mem_append.mpr (Or.inl (by decide))
  · rw [if_neg h]
    refine str_ne_of_mem_not_mem (c := ':') ?_ (by decide)
    rw [strData_append]
    exact List.mem_append.mpr (Or.inr (by decide))

lemma profileFlagValue_ne_ss (u : Bool) : profileFlagValue u ≠ "-ss" := by
  cases u <;> decide

lemma sixFrac_length (n : Nat) : (sixFrac n).length = 6 := by
  simp [sixFrac, String.length]

lemma sixFrac_digits (n : Nat) : ∀ c ∈ (sixFrac n).data, c.isDigit = true := by
  intro c hc
  rcases List.mem_map.mp hc with ⟨i, _, rfl⟩
  exact digitChar_isDigit (Nat.mod_lt _ (by norm_num))

/-- `%.6f` output always decomposes as integer part, one dot, and
exactly six decimal digits. -/
lemma formatFixed6_decomp (q : ℚ) :
    ∃ p f : String, formatFixed6 q = p ++ "." ++ f ∧ f.length = 6 ∧
      (∀ c ∈ f.data, c.isDigit = true) ∧ '.' ∉ p.data := by
  refine ⟨(if micro6 q < 0 then "-" else "") ++
      natStr ((micro6 q).natAbs / 1000000),
    sixFrac ((micro6 q).natAbs % 1000000), rfl, sixFrac_length _,
    sixFrac_digits _, ?_⟩
  intro hmem
  rw [strData_append] at hmem
  rcases List.mem_append.mp hmem with h1 | h1
  · by_cases h : micro6 q < 0
    · rw [if_pos h] at h1; simp at h1
    · rw [if_neg h] at h1; simp at h1
  · have := natChars_digits _ '.' h1
    simp at this


/-! ### Claim C1 -/


/-- Claim C1 (amended): `TranscodeSegments` fails synchronously exactly
in the three synchronous-failure cases (fewer than two boundary times,
stdout/stderr pipe setup failure, process spawn failure).  The
boundary-count and pipe-setup failures return a non-nil error together
with a nil channel and create no channel; the spawn failure, however,
returns the non-nil spawn error together with the already-created,
non-nil channel. -/
theorem C1_sync_failure_cases (env : GoEnv) (ff : String)
    (cfg : TranscodeConfig) :
    ((transcodeSegments env ff cfg).err ≠ none ↔
      (cfg.segmentTimes.length < 2 ∨ env.stdoutPipeErr ≠ none ∨
        env.stderrPipeErr ≠ none ∨ env.startErr ≠ none)) ∧
    (cfg.segmentTimes.length < 2 →
      (transcodeSegments env ff cfg).channel = none ∧
      (transcodeSegments env ff cfg).channelCreated = false) ∧
    (¬ cfg.segmentTimes.length < 2 →
      (env.stdoutPipeErr ≠ none ∨ env.stderrPipeErr ≠ none) →
      (transcodeSegments env ff cfg).channel = none ∧
      (transcodeSegments env ff cfg).channelCreated = false ∧
      (transcodeSegments env ff cfg).err ≠ none) ∧
    (¬ cfg.segmentTimes.length < 2 → env.stdoutPipeErr = none →
      env.stderrPipeErr = none →
      (transcodeSegments env ff cfg).channel = some () ∧
      (transcodeSegments env ff cfg).channelCreated = true ∧
      (transcodeSegments env ff cfg).err = env.startErr) := by
  obtain ⟨pjf, pr, so, se, st⟩ := env
  by_cases hl : cfg.segmentTimes.length < 2 <;>
    cases so <;> cases se <;>
      simp [transcodeSegments, hl, errMinSegments]

/-- Witness for C1 (amended): a concrete stdout-pipe failure yields a
nil channel, no channel creation, and a non-nil error. -/
theorem C1_sync_failure_cases_witness :
    ¬ cfgPlain.segmentTimes.length < 2 ∧
    ((transcodeSegments envPipeFail "ffmpeg" cfgPlain).channel = none ∧
      (transcodeSegments envPipeFail "ffmpeg" cfgPlain).channelCreated = false ∧
      (transcodeSegments envPipeFail "ffmpeg" cfgPlain).err ≠ none) :=
  ⟨by decide,
   (C1_sync_failure_cases envPipeFail "ffmpeg" cfgPlain).2.2.1 (by decide)
     (Or.inl (by decide))⟩

/-- Counterexample to C1 as stated: on a spawn failure the call
returns a non-nil error *and* a non-nil channel, and the channel was
created — contradicting "in every such case it returns … no
notification channel" and "for every call that returns a non-nil
error, no channel is created". -/
theorem C1_spawn_failure_returns_channel :
    (transcodeSegments envSpawnFail "ffmpeg" cfgPlain).err ≠ none ∧
    (transcodeSegments envSpawnFail "ffmpeg" cfgPlain).channel ≠ none ∧
    (transcodeSegments envSpawnFail "ffmpeg" cfgPlain).channelCreated = true := by
  refine ⟨?_, ?_, ?_⟩ <;> decide

/-! ### Claim C2 -/

/-- Claim C2: for every config with at least two boundary times, the
built argument vector contains a forced-keyframe value (right after
`-force_key_frames`) and a segment-split value (right after
`-segment_times`) that are the identical string, namely the
comma-joined list of all boundary times except the first, each
formatted with exactly six decimal places. -/
theorem C2_keyframes_match_segment_times (pj : String → String → String)
    (cfg : TranscodeConfig) (u : Bool) (h2 : 2 ≤ cfg.segmentTimes.length) :
    hasPair "-force_key_frames" (segmentTimesStr cfg) (buildArgs pj cfg u) = true ∧
    hasPair "-segment_times" (segmentTimesStr cfg) (buildArgs pj cfg u) = true ∧
    segmentTimesStr cfg =
      String.intercalate "," ((cfg.segmentTimes.drop 1).map formatFixed6) ∧
    ∀ q : ℚ, ∃ p f : String, formatFixed6 q = p ++ "." ++ f ∧ f.length = 6 ∧
      (∀ c ∈ f.data, c.isDigit = true) ∧ '.' ∉ p.data := by
  refine ⟨?_, ?_, rfl, fun q => formatFixed6_decomp q⟩
  · rw [buildArgs]
    simp only [List.append_assoc]
    refine hasPair_append_right _ (hasPair_append_right _ ?_)
    rw [inputArgs]
    simp only [List.cons_append, List.nil_append]
    exact hasPair_cons _ (hasPair_cons _ (hasPair_cons _ (hasPair_cons _
      (hasPair_cons _ (hasPair_head _ _ _)))))
  · rw [buildArgs]
    simp only [List.append_assoc]
    refine hasPair_append_right _ (hasPair_append_right _
      (hasPair_append_right _ (hasPair_append_right _
        (hasPair_append_right _ ?_))))
    rw [segmentArgs]
    exact hasPair_cons _ (hasPair_cons _ (hasPair_cons _ (hasPair_cons _
      (hasPair_cons _ (hasPair_cons _ (hasPair_head _ _ _))))))

/-! ### Claim C3 -/

/-- When the start time is not positive and no config-supplied string
equals `-ss`, the literal `-ss` does not occur in the built vector. -/
lemma not_mem_ss_buildArgs {pj : String → String → String}
    {cfg : TranscodeConfig} {u : Bool} (h2 : 2 ≤ cfg.segmentTimes.length)
    (hin : cfg.inputFilePath ≠ "-ss")
    (hpat : pj cfg.outputDirPath (cfg.segmentPrefixName ++ "-%05d.ts") ≠ "-ss")
    (hlt : ¬ 0 < startAt cfg) : "-ss" ∉ buildArgs pj cfg u := by
  intro hmem
  rw [buildArgs, seekArgs, if_neg hlt] at hmem
  simp only [List.append_nil, List.mem_append] at hmem
  rcases hmem with (((h | h) | h) | h) | h
  · exact absurd h (by decide)
  · rw [inputArgs] at h
    simp only [List.mem_cons, List.not_mem_nil, or_false] at h
    rcases h with h | h | h | h | h | h | h | h
    · exact absurd h (by decide)
    · exact hin h.symm
    · exact absurd h (by decide)
    · exact formatFixed6_ne_ss _ h.symm
    · exact absurd h (by decide)
    · exact absurd h (by decide)
    · exact segmentTimesStr_ne_ss h2 h.symm
    · exact absurd h (by decide)
  · cases hv : cfg.videoProfile with
    | none => rw [videoArgs, hv] at h; exact absurd h (List.not_mem_nil _)
    | some p =>
      rw [videoArgs, hv] at h
      simp only [List.mem_cons, List.not_mem_nil, or_false] at h
      rcases h with h | h | h | h | h | h | h | h | h | h | h | h
      · exact absurd h (by decide)
      · exact scaleFilter_ne_ss p h.symm
      · exact absurd h (by decide)
      · exact absurd h (by decide)
      · exact absurd h (by decide)
      · exact absurd h (by decide)
      · exact absurd h (by decide)
      · exact profileFlagValue_ne_ss u h.symm
      · exact absurd h (by decide)
      · exact absurd h (by decide)
      · exact absurd h (by decide)
      · exact intStr_k_ne_ss _ h.symm
  · cases ha : cfg.audioProfile with
    | none => rw [audioArgs, ha] at h; exact absurd h (List.not_mem_nil _)
    | some p =>
      rw [audioArgs, ha] at h
      simp only [List.mem_cons, List.not_mem_nil, or_false] at h
      rcases h with h | h | h | h
      · exact absurd h (by decide)
      · exact absurd h (by decide)
      · exact absurd h (by decide)
      · exact intStr_k_ne_ss _ h.symm
  · rw [segmentArgs] at h
    simp only [List.mem_cons, List.not_mem_nil, or_false] at h
    rcases h with h | h | h | h | h | h | h | h | h | h | h | h | h | h | h
    · exact absurd h (by decide)
    · exact absurd h (by decide)
    · exact absurd h (by decide)
    · exact absurd h (by decide)
    · exact absurd h (by decide)
    · exact absurd h (by decide)
    · exact absurd h (by decide)
    · exact segmentTimesStr_ne_ss h2 h.symm
    · exact absurd h (by decide)
    · exact intStr_ne_ss _ h.symm
    · exact absurd h (by decide)
    · exact absurd h (by decide)
    · exact absurd h (by decide)
    · exact absurd h (by decide)
    · exact hpat h.symm

/-- Claim C3 (amended): the claimed equivalence between a `-ss`
occurrence and a positive start time holds for every valid config in
which no caller-supplied string (input path, joined output pattern)
itself equals `-ss`; unconditionally, a positive start time puts
`-ss` at index 2, its six-decimal value at index 3, and the input flag
`-i` right after at index 4. -/
theorem C3_seek_flag_iff_positive_start (pj : String → String → String)
    (cfg : TranscodeConfig) (u : Bool) (h2 : 2 ≤ cfg.segmentTimes.length)
    (hin : cfg.inputFilePath ≠ "-ss")
    (hpat : pj cfg.outputDirPath (cfg.segmentPrefixName ++ "-%05d.ts") ≠ "-ss") :
    ("-ss" ∈ buildArgs pj cfg u ↔ 0 < startAt cfg) ∧
    (0 < startAt cfg →
      (buildArgs pj cfg u).get? 2 = some "-ss" ∧
      (buildArgs pj cfg u).get? 3 = some (formatFixed6 (startAt cfg)) ∧
      (buildArgs pj cfg u).get? 4 = some "-i") := by
  have hpos : 0 < startAt cfg →
      (buildArgs pj cfg u).get? 2 = some "-ss" ∧
      (buildArgs pj cfg u).get? 3 = some (formatFixed6 (startAt cfg)) ∧
      (buildArgs pj cfg u).get? 4 = some "-i" := by
    intro hgt
    rw [buildArgs, seekArgs, if_pos hgt, inputArgs]
    simp only [List.append_assoc, List.cons_append, List.nil_append]
    exact ⟨rfl, rfl, rfl⟩
  refine ⟨⟨fun hmem => ?_, fun hgt => ?_⟩, hpos⟩
  · by_contra hlt
    exact not_mem_ss_buildArgs h2 hin hpat hlt hmem
  · have := (hpos hgt).1
    exact List.get?_mem this

/-- Witness for C3 (amended) at a concrete configuration with a
positive start time. -/
theorem C3_seek_flag_iff_positive_start_witness :
    2 ≤ cfgSeek.segmentTimes.length ∧ 0 < startAt cfgSeek ∧
    ("-ss" ∈ buildArgs pjStd cfgSeek false ∧
      (buildArgs pjStd cfgSeek false).get? 2 = some "-ss" ∧
      (buildArgs pjStd cfgSeek false).get? 3 =
        some (formatFixed6 (startAt cfgSeek)) ∧
      (buildArgs pjStd cfgSeek false).get? 4 = some "-i") :=
  ⟨by decide, by decide,
   (C3_seek_flag_iff_positive_start pjStd cfgSeek false (by decide)
      (by decide) (by decide)).1.mpr (by decide),
   (C3_seek_flag_iff_positive_start pjStd cfgSeek false (by decide)
      (by decide) (by decide)).2 (by decide)⟩

/-- Counterexample to C3 as stated: with input file path literally
`-ss` and first boundary `0`, the built vector does contain the string
`-ss` (as the value of `-i`), so "when the first boundary equals 0.0
no seek flag appears anywhere in the arguments" fails on the raw
argument vector. -/
theorem C3_seek_flag_counterexample :
    startAt cfgSSInput = 0 ∧ "-ss" ∈ buildArgs pjStd cfgSSInput false := by
  constructor
  · decide
  · decide

/-! ### Claim C5 -/

/-- Peel the leading chunks of `buildArgs` down to the video chunk. -/
lemma hasPair_buildArgs_video {f v : String} {pj : String → String → String}
    {cfg : TranscodeConfig} {u : Bool}
    (h : hasPair f v (videoArgs cfg u ++ audioArgs cfg ++ segmentArgs pj cfg) = true) :
    hasPair f v (buildArgs pj cfg u) = true := by
  rw [buildArgs]
  simp only [List.append_assoc] at h ⊢
  exact hasPair_append_right _ (hasPair_append_right _
    (hasPair_append_right _ h))

/-- The per-config scale-filter claim, stated on the vector the claim
reads (the one `TranscodeSegments` builds): what the code anchors is
the *smaller* requested dimension. -/
theorem C5_scale_anchors_smaller_dimension (pj : String → String → String)
    (cfg : TranscodeConfig) (u : Bool) (p : VideoProfile)
    (hv : cfg.videoProfile = some p) :
    hasPair "-vf" (scaleFilter p) (buildArgs pj cfg u) = true ∧
    (p.height ≤ p.width →
      scaleFilter p = "scale=-2:" ++ intStr p.height ∧
      p.height = min p.width p.height) ∧
    (p.width < p.height →
      scaleFilter p = "scale=" ++ intStr p.width ++ ":-2" ∧
      p.width = min p.width p.height) := by
  refine ⟨?_, fun h => ⟨by rw [scaleFilter, if_pos h], (min_eq_right h).symm⟩,
    fun h => ⟨by rw [scaleFilter, if_neg (not_le.mpr h)],
      (min_eq_left h.le).symm⟩⟩
  apply hasPair_buildArgs_video
  rw [videoArgs, hv]
  simp only [List.cons_append, List.append_assoc]
  exact hasPair_head _ _ _

/-- Witness for C5 (amended) at a concrete profile. -/
theorem C5_scale_anchors_smaller_dimension_witness :
    cfgFull.videoProfile = some ⟨1920, 1080, 3000⟩ ∧
    hasPair "-vf" (scaleFilter ⟨1920, 1080, 3000⟩)
      (buildArgs pjStd cfgFull false) = true :=
  ⟨by decide,
   (C5_scale_anchors_smaller_dimension pjStd cfgFull false ⟨1920, 1080, 3000⟩
      (by decide)).1⟩

/-- Counterexample to C5 as stated: with requested dimensions
1920x1080 the larger dimension is the width, but the built vector
carries the height-anchored filter `scale=-2:1080` and nowhere the
width-anchored `scale=1920:-2`. -/
theorem C5_scale_counterexample :
    (1080 : Int) < 1920 ∧
    hasPair "-vf" "scale=-2:1080" (buildArgs pjStd cfgFull false) = true ∧
    "scale=1920:-2" ∉ buildArgs pjStd cfgFull false := by
  refine ⟨by decide, by decide, by decide⟩

/-! ### Claim C6 -/

/-- Claim C6: the profile classifier is a pure membership test on the
enumerated 4:2:2 set (with the empty string outside it), and the
`-profile:v` value built from it is `high422` exactly on members and
`high` otherwise. -/
theorem C6_classifier_membership (pj : String → String → String)
    (cfg : TranscodeConfig) (p : VideoProfile) (pf : String)
    (hv : cfg.videoProfile = some p) :
    (is422Format pf = true ↔ pf ∈ format422List) ∧
    is422Format "" = false ∧
    profileFlagValue true = "high422" ∧
    profileFlagValue false = "high" ∧
    hasPair "-profile:v" (profileFlagValue (is422Format pf))
      (buildArgs pj cfg (is422Format pf)) = true := by
  refine ⟨?_, by decide, rfl, rfl, ?_⟩
  · rw [is422Format, List.contains]
    exact List.elem_iff
  · apply hasPair_buildArgs_video
    rw [videoArgs, hv]
    simp only [List.cons_append, List.append_assoc]
    exact hasPair_cons _ (hasPair_cons _ (hasPair_cons _ (hasPair_cons _
      (hasPair_cons _ (hasPair_cons _ (hasPair_head _ _ _))))))

/-- Witness for C6 at a concrete 4:2:2 pixel format. -/
theorem C6_classifier_membership_witness :
    cfgFull.videoProfile = some ⟨1920, 1080, 3000⟩ ∧
    (is422Format "yuv422p10le" = true ↔ "yuv422p10le" ∈ format422List) ∧
    hasPair "-profile:v" (profileFlagValue (is422Format "yuv422p10le"))
      (buildArgs pjStd cfgFull (is422Format "yuv422p10le")) = true :=
  ⟨by decide,
   (C6_classifier_membership pjStd cfgFull ⟨1920, 1080, 3000⟩ "yuv422p10le"
      (by decide)).1,
   (C6_classifier_membership pjStd cfgFull ⟨1920, 1080, 3000⟩ "yuv422p10le"
      (by decide)).2.2.2.2⟩

/-! ### Claim C7 -/

/-- Claim C7: a probe failure never fails the transcode call.  When
`detectVideoFormat` reports an error, the call warns, and its whole
observable outcome equals (up to that warning flag) the outcome with
any standard-classified probe answer; the vector is the one built with
the standard profile, whose `-profile:v` value is `high`. -/
theorem C7_probe_failure_nonfatal (env : GoEnv) (ff : String)
    (cfg : TranscodeConfig) (e pf : String) (p : VideoProfile)
    (hv : cfg.videoProfile = some p) (h2 : 2 ≤ cfg.segmentTimes.length)
    (he : env.probeResult = .error e) (hpf : is422Format pf = false) :
    (transcodeSegments env ff cfg).probeWarned = true ∧
    transcodeSegments env ff cfg =
      { transcodeSegments { env with probeResult := .ok pf } ff cfg with
          probeWarned := true } ∧
    (transcodeSegments env ff cfg).args =
      some (buildArgs env.pathJoin cfg false) ∧
    hasPair "-profile:v" "high" (buildArgs env.pathJoin cfg false) = true := by
  have hl : ¬ cfg.segmentTimes.length < 2 := by omega
  obtain ⟨pjf, pr, so, se, st⟩ := env
  subst he
  refine ⟨?_, ?_, ?_, ?_⟩
  · cases so <;> cases se <;> simp [transcodeSegments, hl, hv]
  · cases so <;> cases se <;> simp [transcodeSegments, hl, hv, hpf]
  · cases so <;> cases se <;> simp [transcodeSegments, hl, hv]
  · apply hasPair_buildArgs_video
    rw [videoArgs, hv]
    simp only [List.cons_append, List.append_assoc]
    refine hasPair_cons _ (hasPair_cons _ (hasPair_cons _ (hasPair_cons _
      (hasPair_cons _ (hasPair_cons _ ?_)))))
    rw [profileFlagValue]
    simp only [Bool.false_eq_true, if_false]
    exact hasPair_head _ _ _


/-- Witness for C7 at a concrete configuration and failing probe. -/
theorem C7_probe_failure_nonfatal_witness :
    cfgFull.videoProfile = some ⟨1920, 1080, 3000⟩ ∧
    2 ≤ cfgFull.segmentTimes.length ∧
    envProbeFail.probeResult = .error "failed to run ffprobe: exit status 1" ∧
    is422Format "yuv420p" = false ∧
    ((transcodeSegments envProbeFail "ffmpeg" cfgFull).probeWarned = true ∧
      (transcodeSegments envProbeFail "ffmpeg" cfgFull).args =
        some (buildArgs envProbeFail.pathJoin cfgFull false)) :=
  ⟨by decide, by decide, rfl, by decide,
   (C7_probe_failure_nonfatal envProbeFail "ffmpeg" cfgFull
      "failed to run ffprobe: exit status 1" "yuv420p" ⟨1920, 1080, 3000⟩
      (by decide) (by decide) rfl (by decide)).1,
   (C7_probe_failure_nonfatal envProbeFail "ffmpeg" cfgFull
      "failed to run ffprobe: exit status 1" "yuv420p" ⟨1920, 1080, 3000⟩
      (by decide) (by decide) rfl (by decide)).2.2.1⟩

/-! ### Claim C10 -/

lemma replaceOnceL_of_not_contains (pat new : List Char) :
    ∀ l, listContainsSub pat l = false → replaceOnceL pat new l = l := by
  intro l
  induction l with
  | nil => intro _; rfl
  | cons c rest ih =>
    intro h
    rw [listContainsSub, Bool.or_eq_false_iff] at h
    rw [replaceOnceL, if_neg (by simp [h.1]), ih h.2]

/-- Claim C10: the binary handed to the probe is the encoder binary
with the first occurrence of `ffmpeg` replaced by `ffprobe`; when the
encoder path does not contain `ffmpeg`, the replacement is the
identity; when no video profile is present, no probe happens at all. -/
theorem C10_probe_binary_replacement (env : GoEnv) (ff : String)
    (cfg : TranscodeConfig) :
    (∀ b, (transcodeSegments env ff cfg).probeCall = some b →
      b = replaceOnce ff "ffmpeg" "ffprobe") ∧
    (cfg.videoProfile.isSome = true → ¬ cfg.segmentTimes.length < 2 →
      (transcodeSegments env ff cfg).probeCall =
        some (replaceOnce ff "ffmpeg" "ffprobe")) ∧
    (listContainsSub "ffmpeg".data ff.data = false →
      replaceOnce ff "ffmpeg" "ffprobe" = ff) ∧
    (cfg.videoProfile = none →
      (transcodeSegments env ff cfg).probeCall = none) := by
  obtain ⟨pjf, pr, so, se, st⟩ := env
  refine ⟨?_, ?_, ?_, ?_⟩
  · intro b hb
    by_cases hl : cfg.segmentTimes.length < 2
    · simp [transcodeSegments, hl] at hb
    · cases hvp : cfg.videoProfile <;> cases so <;> cases se <;>
        simp [transcodeSegments, hl, hvp] at hb <;> exact hb.symm
  · intro hv hl
    obtain ⟨p, hp⟩ := Option.isSome_iff_exists.mp hv
    cases so <;> cases se <;> simp [transcodeSegments, hl, hp]
  · intro hnc
    rw [replaceOnce, replaceOnceL_of_not_contains _ _ _ hnc]
  · intro hvp
    by_cases hl : cfg.segmentTimes.length < 2 <;> cases so <;> cases se <;>
      simp [transcodeSegments, hl, hvp]

/-- Witness for C10: a concrete config with a video profile probes via
the replaced binary path. -/
theorem C10_probe_binary_replacement_witness :
    cfgFull.videoProfile.isSome = true ∧
    ¬ cfgFull.segmentTimes.length < 2 ∧
    (transcodeSegments envProbeFail "/usr/bin/ffmpeg" cfgFull).probeCall =
      some (replaceOnce "/usr/bin/ffmpeg" "ffmpeg" "ffprobe") :=
  ⟨by decide, by decide,
   (C10_probe_binary_replacement envProbeFail "/usr/bin/ffmpeg" cfgFull).2.1
      (by decide) (by decide)⟩

/-! ### Claims C4 and C8 -/

/-- Claim C4 (amended): both `platformKill` variants return no error
when the command is nil or was never started (nil process handle); on
a started process, each variant returns exactly what the underlying
termination mechanism reports, so a nil return is guaranteed only in
the absent-process cases. -/
theorem C4_kill_absent_process_no_error (envP : PosixKillEnv)
    (envW : WinKillEnv) :
    (platformKillPosix none envP).ret = none ∧
    (platformKillPosix (some none) envP).ret = none ∧
    (platformKillWindows none envW).1 = none ∧
    (platformKillWindows (some none) envW).1 = none ∧
    (∀ pid : Int, (platformKillWindows (some (some pid)) envW).1 =
      envW.taskkillRun) ∧
    (∀ (pid : Int) (e : String), envP.getpgid = .error e →
      (platformKillPosix (some (some pid)) envP).ret = envP.processKill) ∧
    (∀ (pid g : Int), envP.getpgid = .ok g →
      (platformKillPosix (some (some pid)) envP).ret = envP.killGroup) := by
  refine ⟨rfl, rfl, rfl, rfl, fun _ => rfl, fun pid e he => ?_, fun pid g hg => ?_⟩
  · rw [platformKillPosix, he]
  · rw [platformKillPosix, hg]

/-- Witness for C4 (amended) at concrete environments. -/
theorem C4_kill_absent_process_no_error_witness :
    (platformKillPosix none ⟨.ok 7, none, none⟩).ret = none ∧
    (platformKillPosix (some none) ⟨.ok 7, none, none⟩).ret = none ∧
    (platformKillWindows none ⟨none⟩).1 = none ∧
    (platformKillWindows (some none) ⟨none⟩).1 = none :=
  ⟨(C4_kill_absent_process_no_error ⟨.ok 7, none, none⟩ ⟨none⟩).1,
   (C4_kill_absent_process_no_error ⟨.ok 7, none, none⟩ ⟨none⟩).2.1,
   (C4_kill_absent_process_no_error ⟨.ok 7, none, none⟩ ⟨none⟩).2.2.1,
   (C4_kill_absent_process_no_error ⟨.ok 7, none, none⟩ ⟨none⟩).2.2.2.1⟩


/-- Counterexample to C4 as stated: calling `Kill` a second time on an
already-exited (reaped) process returns the underlying mechanism's
non-nil error on both variants — the code forwards
`cmd.Process.Kill()` resp. `kill.Run()` unconditionally, so "returns
no error in every such case" fails. -/
theorem C4_kill_dead_process_counterexample :
    (platformKillPosix (some (some 42)) envKillDeadPosix).ret ≠ none ∧
    (platformKillWindows (some (some 42)) envKillDeadWin).1 ≠ none := by
  refine ⟨?_, ?_⟩ <;> decide

/-- Claim C8: on the POSIX variant with a started process, a failing
group-id resolution makes `Kill` fall back to killing only the direct
process, return exactly that fallback's result, and log (not return)
the resolution error; a successful resolution signals the negated
group id. -/
theorem C8_kill_pgid_fallback (pid : Int) (env : PosixKillEnv) :
    (∀ e : String, env.getpgid = .error e →
      (platformKillPosix (some (some pid)) env).ret = env.processKill ∧
      (platformKillPosix (some (some pid)) env).loggedPgidErr = some e ∧
      (platformKillPosix (some (some pid)) env).action = .direct) ∧
    (∀ g : Int, env.getpgid = .ok g →
      (platformKillPosix (some (some pid)) env).ret = env.killGroup ∧
      (platformKillPosix (some (some pid)) env).loggedPgidErr = none ∧
      (platformKillPosix (some (some pid)) env).action = .group (-g)) := by
  refine ⟨fun e he => ?_, fun g hg => ?_⟩
  · rw [platformKillPosix, he]; exact ⟨rfl, rfl, rfl⟩
  · rw [platformKillPosix, hg]; exact ⟨rfl, rfl, rfl⟩

/-- Witness for C8 at a concrete environment with failing resolution. -/
theorem C8_kill_pgid_fallback_witness :
    envKillDeadPosix.getpgid = .error "no such process" ∧
    ((platformKillPosix (some (some 42)) envKillDeadPosix).ret =
        envKillDeadPosix.processKill ∧
      (platformKillPosix (some (some 42)) envKillDeadPosix).loggedPgidErr =
        some "no such process" ∧
      (platformKillPosix (some (some 42)) envKillDeadPosix).action =
        .direct) :=
  ⟨rfl, (C8_kill_pgid_fallback 42 envKillDeadPosix).1 "no such process" rfl⟩

/-! ### Claim C9 -/


lemma orchInv_init : OrchInv initOrch := by
  refine ⟨by decide, by decide, by decide⟩

lemma orchInv_step {s s2 : OrchState} (h : OrchInv s) (hs : OrchStep s s2) :
    OrchInv s2 := by
  obtain ⟨hwg, hct, hcf⟩ := h
  cases hs with
  | stderr h1 =>
    refine ⟨?_, fun hc => absurd (hct hc).2.1 (by simp [h1]),
      fun hc => hcf hc⟩
    show s.wg - 1 = _
    rw [hwg, h1]
    by_cases hw : s.waitDone <;> simp [hw]
  | wait h1 =>
    refine ⟨?_, fun hc => absurd (hct hc).2.2.1 (by simp [h1]),
      fun hc => hcf hc⟩
    show s.wg - 1 = _
    rw [hwg, h1]
    by_cases hw : s.stderrDone <;> simp [hw]
  | eof h1 =>
    refine ⟨hwg, fun hc => ?_, fun hc => hcf hc⟩
    have := hct hc
    exact ⟨rfl, this.2.1, this.2.2.1, this.2.2.2⟩
  | close h1 h2 h3 =>
    have hsd : s.stderrDone = true := by
      by_contra hns
      rw [Bool.not_eq_true] at hns
      rw [hwg, hns] at h2
      simp at h2
    have hwd : s.waitDone = true := by
      by_contra hns
      rw [Bool.not_eq_true] at hns
      rw [hwg, hns] at h2
      simp at h2
    have hcc : s.closeCount = 0 := hcf h3
    refine ⟨hwg, fun _ => ⟨h1, hsd, hwd, ?_⟩, fun hc => by simp at hc⟩
    show s.closeCount + 1 = 1
    omega

lemma orchInv_reached {s : OrchState} (h : OrchReached s) : OrchInv s := by
  induction h with
  | refl => exact orchInv_init
  | tail _ hstep ih => exact orchInv_step ih hstep

/-- As long as the channel is open, some task can still make a step:
the system never deadlocks with the channel open. -/
lemma orch_progress {s : OrchState} (hInv : OrchInv s)
    (hc : s.closed = false) : ∃ s2, OrchStep s s2 := by
  by_cases he : s.stdoutEOF = true
  · by_cases hsd : s.stderrDone = true
    · by_cases hwd : s.waitDone = true
      · refine ⟨_, OrchStep.close s he ?_ hc⟩
        rw [hInv.1, hsd, hwd]
        decide
      · exact ⟨_, OrchStep.wait s (Bool.not_eq_true _ ▸ hwd)⟩
    · exact ⟨_, OrchStep.stderr s (Bool.not_eq_true _ ▸ hsd)⟩
  · exact ⟨_, OrchStep.eof s (Bool.not_eq_true _ ▸ he)⟩


lemma orchStep_remaining {s s2 : OrchState} (hs : OrchStep s s2) :
    orchRemaining s2 + 1 = orchRemaining s := by
  cases hs with
  | stderr h1 => simp [orchRemaining, h1]; omega
  | wait h1 => simp [orchRemaining, h1]; omega
  | eof h1 => simp [orchRemaining, h1]; omega
  | close h1 h2 h3 => simp [orchRemaining, h1, h3]

lemma orch_reach_closed_aux :
    ∀ (n : Nat) (s : OrchState), orchRemaining s ≤ n → OrchInv s →
      ∃ t, Relation.ReflTransGen OrchStep s t ∧ t.closed = true ∧
        t.closeCount = 1 := by
  intro n
  induction n with
  | zero =>
    intro s hrem hInv
    have hc : s.closed = true := by
      by_contra hns
      rw [Bool.not_eq_true] at hns
      rw [orchRemaining, hns] at hrem
      simp at hrem
    exact ⟨s, Relation.ReflTransGen.refl, hc, (hInv.2.1 hc).2.2.2⟩
  | succ n ih =>
    intro s hrem hInv
    by_cases hc : s.closed = true
    · exact ⟨s, Relation.ReflTransGen.refl, hc, (hInv.2.1 hc).2.2.2⟩
    · obtain ⟨s2, hstep⟩ := orch_progress hInv (Bool.not_eq_true _ ▸ hc)
      have hr2 : orchRemaining s2 ≤ n := by
        have := orchStep_remaining hstep
        omega
      obtain ⟨t, ht, htc, htn⟩ := ih s2 hr2 (orchInv_step hInv hstep)
      exact ⟨t, Relation.ReflTransGen.head hstep ht, htc, htn⟩

/-- From every reachable open state the system can reach the closed
state. -/
lemma orch_reach_closed {s : OrchState} (hInv : OrchInv s) :
    ∃ t, Relation.ReflTransGen OrchStep s t ∧ t.closed = true ∧
      t.closeCount = 1 :=
  orch_reach_closed_aux (orchRemaining s) s le_rfl hInv

/-- Claim C9: in every run of the post-start barrier, the channel is
closed at most once; a closed channel implies the stdout reader saw
end-of-stream and both the stderr reader and the exit supervisor had
finished (the join); an open channel has seen no close and can still
progress; and the close (exactly one) is eventually reachable. -/
theorem C9_channel_close_barrier (s : OrchState) (hs : OrchReached s) :
    s.closeCount ≤ 1 ∧
    (s.closed = true → s.stdoutEOF = true ∧ s.stderrDone = true ∧
      s.waitDone = true ∧ s.closeCount = 1) ∧
    (s.closed = false → s.closeCount = 0 ∧ ∃ s2, OrchStep s s2) ∧
    ∃ t, Relation.ReflTransGen OrchStep s t ∧ t.closed = true ∧
      t.closeCount = 1 := by
  have hInv := orchInv_reached hs
  refine ⟨?_, hInv.2.1, fun hc => ⟨hInv.2.2 hc, orch_progress hInv hc⟩,
    orch_reach_closed hInv⟩
  by_cases hc : s.closed = true
  · rw [(hInv.2.1 hc).2.2.2]
  · rw [hInv.2.2 (Bool.not_eq_true _ ▸ hc)]
    omega

/-- Witness for C9 at the initial (post-start) state. -/
theorem C9_channel_close_barrier_witness :
    initOrch.closeCount ≤ 1 ∧
    (initOrch.closed = true → initOrch.stdoutEOF = true ∧
      initOrch.stderrDone = true ∧ initOrch.waitDone = true ∧
      initOrch.closeCount = 1) ∧
    (initOrch.closed = false → initOrch.closeCount = 0 ∧
      ∃ s2, OrchStep initOrch s2) ∧
    ∃ t, Relation.ReflTransGen OrchStep initOrch t ∧ t.closed = true ∧
      t.closeCount = 1 :=
  C9_channel_close_barrier initOrch Relation.ReflTransGen.refl

/-- Witness for C2 at a concrete configuration. -/
theorem C2_keyframes_match_segment_times_witness :
    2 ≤ cfgFull.segmentTimes.length ∧
    hasPair "-force_key_frames" (segmentTimesStr cfgFull)
      (buildArgs pjStd cfgFull false) = true ∧
    hasPair "-segment_times" (segmentTimesStr cfgFull)
      (buildArgs pjStd cfgFull false) = true :=
  ⟨by decide,
   (C2_keyframes_match_segment_times pjStd cfgFull false (by decide)).1,
   (C2_keyframes_match_segment_times pjStd cfgFull false (by decide)).2.1⟩
